import Mathlib

/-!
Verification of the KubeResourceAdvisor analysis pipeline.

The Python sources under `src/` are shallowly embedded here: strings are
modelled as `String` / `List Char`, Python floats as exact rationals `ℚ`
(all quantities handled by the pipeline are small decimal literals, which
IEEE doubles represent exactly on the paths verified below), and Python
exceptions as `Except PyErr`.  Each definition carries a comment pointing
to the source function it embeds.
-/

attribute [local semireducible] Rat.add Rat.mul Rat.inv Rat.sub Rat.ofScientific

/-- Python exception kinds relevant to the embedded code paths. -/
inductive PyErr where
  | valueError
  | attributeError
  deriving DecidableEq, Repr

/-- Decidable equality for `Except`, needed to evaluate the embedded code on
concrete inputs. -/
instance exceptDecEq {ε α : Type} [DecidableEq ε] [DecidableEq α] :
    DecidableEq (Except ε α) := fun x y =>
  match x, y with
  | Except.ok a, Except.ok b =>
    if h : a = b then isTrue (by rw [h]) else isFalse (by simp [h])
  | Except.error e, Except.error f =>
    if h : e = f then isTrue (by rw [h]) else isFalse (by simp [h])
  | Except.ok _, Except.error _ => isFalse (by simp)
  | Except.error _, Except.ok _ => isFalse (by simp)

/-- Whitespace test backing Python `str.split()` / `str.strip()`. -/
def isWs (c : Char) : Bool := c.isWhitespace

/-- Worker for `splitWs`; `cur` holds the current token reversed. -/
def splitWsGo (cur : List Char) : List Char → List (List Char)
  | [] => if cur.isEmpty then [] else [cur.reverse]
  | c :: cs =>
    if isWs c then
      if cur.isEmpty then splitWsGo [] cs else cur.reverse :: splitWsGo [] cs
    else splitWsGo (c :: cur) cs

/-- Python `str.split()` with no argument: split on whitespace runs, dropping
empty tokens. -/
def splitWs (cs : List Char) : List (List Char) := splitWsGo [] cs

/-- Python `str.strip()` on a character list. -/
def trimL (cs : List Char) : List Char :=
  ((cs.dropWhile isWs).reverse.dropWhile isWs).reverse

/-- Python substring containment, the `in` operator on strings. -/
def isSubstrOf (pat : List Char) : List Char → Bool
  | [] => pat.isEmpty
  | c :: cs => pat.isPrefixOf (c :: cs) || isSubstrOf pat cs

/-- Python `str.split(sep)` for a one-character separator: keeps empty pieces,
as Python does. -/
def splitOnChar (sep : Char) : List Char → List (List Char)
  | [] => [[]]
  | c :: cs =>
    if c == sep then [] :: splitOnChar sep cs
    else
      match splitOnChar sep cs with
      | h :: t => (c :: h) :: t
      | [] => [[c]]

/-- Python `str.replace(" ago", "")`: delete every occurrence of the token,
scanning left to right. -/
def removeAgo : List Char → List Char
  | ' ' :: 'a' :: 'g' :: 'o' :: cs => removeAgo cs
  | c :: cs => c :: removeAgo cs
  | [] => []

/-- Python `str.rstrip(c)`: remove every trailing copy of one character. -/
def rstripChar (c : Char) (cs : List Char) : List Char :=
  (cs.reverse.dropWhile (fun x => x == c)).reverse

/-- Python `" ".join(tokens)`. -/
def joinSpace : List String → String
  | [] => ""
  | [s] => s
  | s :: rest => s ++ " " ++ joinSpace rest

/-- Value of a decimal digit run, as Python `int()` / `float()` accumulate it. -/
def digitsToNat (cs : List Char) : Nat := cs.foldl (fun a c => 10 * a + (c.toNat - 48)) 0

/-- Digit run as a rational. -/
def digitsToQ (cs : List Char) : ℚ := (digitsToNat cs : ℚ)

/-- Value of a digit run read after the decimal point. -/
def fracToQ (cs : List Char) : ℚ := (digitsToNat cs : ℚ) / 10 ^ cs.length

/-- Sign-free part of Python `float()` on the decimal-literal grammar:
digits with an optional decimal point, at least one digit overall. -/
def parseUnsignedQ (cs : List Char) : Option ℚ :=
  let ip := cs.takeWhile Char.isDigit
  match cs.dropWhile Char.isDigit with
  | [] => if ip.isEmpty then none else some (digitsToQ ip)
  | '.' :: r2 =>
    let fp := r2.takeWhile Char.isDigit
    if (r2.dropWhile Char.isDigit).isEmpty && !(ip.isEmpty && fp.isEmpty) then
      some (digitsToQ ip + fracToQ fp)
    else none
  | _ => none

/-- Python `float()` on the decimal-literal grammar (optional sign, digits,
optional point).  Exponents and special values never occur in the line
formats this repository parses. -/
def pyFloat? (cs : List Char) : Option ℚ :=
  match trimL cs with
  | '+' :: r => parseUnsignedQ r
  | '-' :: r => (parseUnsignedQ r).map (fun q => -q)
  | r => parseUnsignedQ r

/-- Python `int()` on a decimal string: optional sign, nonempty digit run. -/
def pyInt? (cs : List Char) : Option ℤ :=
  match trimL cs with
  | '+' :: ds => if !ds.isEmpty && ds.all Char.isDigit then some ((digitsToNat ds : ℤ)) else none
  | '-' :: ds => if !ds.isEmpty && ds.all Char.isDigit then some (-(digitsToNat ds : ℤ)) else none
  | ds => if !ds.isEmpty && ds.all Char.isDigit then some ((digitsToNat ds : ℤ)) else none

/-- Python `int()` applied to a float: truncation toward zero. -/
def pyTrunc (q : ℚ) : ℤ := if 0 ≤ q then ⌊q⌋ else ⌈q⌉

/-- pandas `Series.max` over the list of values (only reached on nonempty
series in the verified paths). -/
def listMax : List ℚ → ℚ
  | [] => 0
  | x :: xs => xs.foldl max x

/-- pandas `Series.mean`: sum divided by length. -/
def listMean (l : List ℚ) : ℚ := l.sum / (l.length : ℚ)

/-- Character class `[a-zA-Z-]` of the service-name pattern in
`KubernetesMonitor._extract_service_name`. -/
def isSvcChar (c : Char) : Bool := c.isAlpha || c == '-'

/-- Character class `[a-f0-9]` (lowercase hexadecimal). -/
def isHexLower (c : Char) : Bool := c.isDigit || (decide ('a' ≤ c) && decide (c ≤ 'f'))

/-- Character class `[a-z0-9]`. -/
def isLowAlnum (c : Char) : Bool := c.isDigit || (decide ('a' ≤ c) && decide (c ≤ 'z'))

/-- Character class `[\w-]` of the pattern in `HealthAnalyzer.analyze_pods`. -/
def isWordHyphen (c : Char) : Bool := c.isAlphanum || c == '_' || c == '-'

/-- Matcher for the regex fragment `-[a-z0-9]{5}`: a hyphen followed by at
least five lowercase alphanumerics. -/
def hyphenFive (cs : List Char) : Bool :=
  match cs with
  | c :: r2 => c == '-' && decide (5 ≤ r2.length) && (r2.take 5).all isLowAlnum
  | [] => false

/-- Matcher for the regex fragment `-[a-f0-9]{8,10}-[a-z0-9]{5}` that must
follow the captured group of `_extract_service_name`; the greedy `{8,10}`
repetition is an existence check over the three possible lengths. -/
def svcTail (cs : List Char) : Bool :=
  match cs with
  | c :: rest =>
    c == '-' && ([10, 9, 8].any fun k =>
      decide (k ≤ rest.length) && (rest.take k).all isHexLower && hyphenFive (rest.drop k))
  | [] => false

/-- Matcher for the fragment `-[a-f0-9]` that must follow the captured group
of HealthAnalyzer's pattern `([\w-]+)-[a-f0-9]`. -/
def analyzerTail (cs : List Char) : Bool :=
  match cs with
  | c :: c2 :: _ => c == '-' && isHexLower c2
  | _ => false

/-- Greedy backtracking search for the longest captured group: group lengths
are tried from `n` down to 1, exactly as Python's regex engine backtracks a
greedy leading character class. -/
def findGroup (tl : List Char → Bool) (cs : List Char) : Nat → Option (List Char)
  | 0 => none
  | g + 1 => if tl (cs.drop (g + 1)) then some (cs.take (g + 1)) else findGroup tl cs g

/-- Embeds `KubernetesMonitor._extract_service_name`
(src/metric_analyzer/kubernetes_monitor.py, lines 23-26): Python
`re.match(r'^([a-zA-Z-]+)-[a-f0-9]{8,10}-[a-z0-9]{5}', pod_name)`, returning
the captured group on a match and the whole name otherwise. -/
def extract_service_name (pod_name : String) : String :=
  let cs := pod_name.toList
  match findGroup svcTail cs (cs.takeWhile isSvcChar).length with
  | some g => g.asString
  | none => pod_name

/-- Embeds the match `re.match(r'([\w-]+)-[a-f0-9]', name)` of
`HealthAnalyzer.analyze_pods` (src/performance_test/health_analyzer.py,
line 19), returning the captured group when the pattern matches. -/
def analyzerService? (name : String) : Option String :=
  let cs := name.toList
  (findGroup analyzerTail cs (cs.takeWhile isWordHyphen).length).map List.asString

/-- Embeds `KubernetesMonitor._parse_duration` on character lists
(src/metric_analyzer/kubernetes_monitor.py, lines 28-50): parentheses and
every occurrence of " ago" are removed, then optional `h`, `m`, `s`
components are consumed in that order, yielding fractional hours.  A
`float()` failure surfaces as `Except.error PyErr.valueError`, which the
callers catch. -/
def parseDurationL (cs0 : List Char) : Except PyErr ℚ :=
  let d0 := removeAgo (cs0.filter (fun c => !(c == '(') && !(c == ')')))
  let hStep : Except PyErr (ℚ × List Char) :=
    if d0.contains 'h' then
      let ps := splitOnChar 'h' d0
      match pyFloat? (ps.headD []) with
      | some x => Except.ok (x, ps.getD 1 [])
      | none => Except.error PyErr.valueError
    else Except.ok (0, d0)
  match hStep with
  | Except.error e => Except.error e
  | Except.ok (hrs, d1) =>
    let mStep : Except PyErr (ℚ × List Char) :=
      if d1.contains 'm' then
        let ps := splitOnChar 'm' d1
        match pyFloat? (ps.headD []) with
        | some x => Except.ok (hrs + x / 60, ps.getD 1 [])
        | none => Except.error PyErr.valueError
      else Except.ok (hrs, d1)
    match mStep with
    | Except.error e => Except.error e
    | Except.ok (hrs2, d2) =>
      if d2.contains 's' then
        match pyFloat? ((splitOnChar 's' d2).headD []) with
        | some x => Except.ok (hrs2 + x / 3600)
        | none => Except.error PyErr.valueError
      else Except.ok hrs2

/-- String-level wrapper of `parseDurationL` (the source method takes a
string). -/
def parse_duration (s : String) : Except PyErr ℚ := parseDurationL s.toList

/-- Embeds `int(restarts.split('(')[0].strip())` of
`_process_single_health_line` (kubernetes_monitor.py, line 67). -/
def restartCount? (restarts : String) : Option ℤ :=
  pyInt? ((splitOnChar '(' restarts.toList).headD [])

/-- Body of `_process_single_health_line` after tokenization
(kubernetes_monitor.py, lines 57-75): fewer than 7 tokens means skip; a
failed restart-count or age parse is caught and yields `none`; otherwise the
service is flagged iff `(restart_count > 0 or status == "CrashLoopBackOff")
and hours_ago <= 2`. -/
def process_health_parts (parts : List String) : Option String :=
  if parts.length < 7 then none
  else
    match restartCount? (parts.getD 4 "") with
    | none => none
    | some rc =>
      match parse_duration (joinSpace ((parts.drop 5).take 2)) with
      | Except.error _ => none
      | Except.ok hrs =>
        if (0 < rc ∨ parts.getD 3 "" = "CrashLoopBackOff") ∧ hrs ≤ 2 then
          some (extract_service_name (parts.getD 1 ""))
        else none

/-- Embeds `KubernetesMonitor._process_single_health_line`
(kubernetes_monitor.py, lines 52-75): header lines (containing "NAME") and
blank lines are skipped before tokenization. -/
def process_single_health_line (line : String) : Option String :=
  if isSubstrOf ("NAME".toList) line.toList || (trimL line.toList).isEmpty then none
  else process_health_parts ((splitWs line.toList).map List.asString)

/-- Python `set.add`, modelled as an insertion-ordered duplicate-free list. -/
def addSet (acc : List String) (s : String) : List String :=
  if s ∈ acc then acc else acc ++ [s]

/-- One iteration of the loop in `KubernetesMonitor._process_health_data`
(kubernetes_monitor.py, lines 79-82): `if service:` keeps only truthy
(nonempty) service names. -/
def healthStep (acc : List String) (line : String) : List String :=
  match process_single_health_line line with
  | some s => if s = "" then acc else addSet acc s
  | none => acc

/-- Embeds `KubernetesMonitor._process_health_data`
(kubernetes_monitor.py, lines 77-83); the Python set is modelled as an
insertion-ordered duplicate-free list. -/
def process_health_data (lines : List String) : List String :=
  lines.foldl healthStep []

/-- Malformed health line in the sense of the spec: wrong token count
(fewer than the 7 required by `_process_single_health_line`) or a
non-numeric restart-count field. -/
def malformedHealthLine (line : String) : Bool :=
  let parts := (splitWs line.toList).map List.asString
  decide (parts.length < 7) || (restartCount? (parts.getD 4 "")).isNone

/-- One iteration of the loop in `HealthAnalyzer.analyze_pods`
(src/performance_test/health_analyzer.py, lines 11-22).  There is no
exception handling: a non-numeric restart count makes `int()` raise
`ValueError`, aborting the whole batch; the regex match guard short-circuits
before `int()` when the name does not match. -/
def analyzePodsStep (acc : List String) (line : String) : Except PyErr (List String) :=
  if isSubstrOf ("NAME".toList) line.toList || (trimL line.toList).isEmpty then Except.ok acc
  else
    let parts := (splitWs line.toList).map List.asString
    if 6 ≤ parts.length then
      match analyzerService? (parts.getD 1 "") with
      | none => Except.ok acc
      | some svc =>
        match pyInt? ((splitWs (parts.getD 4 "").toList).headD []) with
        | none => Except.error PyErr.valueError
        | some rc =>
          Except.ok (if 0 < rc ∨ parts.getD 3 "" = "CrashLoopBackOff" then addSet acc svc else acc)
    else Except.ok acc

/-- Embeds `HealthAnalyzer.analyze_pods` (health_analyzer.py, lines 7-24):
a fold in the exception monad, since an uncaught `ValueError` propagates. -/
def analyze_pods (lines : List String) : Except PyErr (List String) :=
  lines.foldlM analyzePodsStep []

/-- Embeds `ResourceParser.parse_cpu` (src/recommender_system/
resource_recommender.py, lines 39-52) on string input: a trailing `m` means
millicores taken verbatim, otherwise the value is scaled by 1000
(cores to millicores).  When `float()` raises, the handler runs
`self.logger.warning(...)`, but `ResourceParser.__init__` never defines
`self.logger`, so the handler itself raises `AttributeError`. -/
def parseCpuL (cs : List Char) : Except PyErr ℚ :=
  if cs.getLast? = some 'm' then
    match pyFloat? (rstripChar 'm' cs) with
    | some x => Except.ok x
    | none => Except.error PyErr.attributeError
  else
    match pyFloat? cs with
    | some x => Except.ok (x * 1000)
    | none => Except.error PyErr.attributeError

/-- String-level wrapper of `parseCpuL`. -/
def parse_cpu (v : String) : Except PyErr ℚ := parseCpuL v.toList

/-- Embeds `ResourceRecommenderProphet._parse_kubernetes_cpu`
(resource_recommender.py, lines 75-87) on string input: same grammar as
`parse_cpu` but with no scaling for unsuffixed values, and a working logger,
so a parse failure is logged and yields 0.0. -/
def prophetParseCpuL (cs : List Char) : ℚ :=
  if cs.getLast? = some 'm' then
    match pyFloat? (rstripChar 'm' cs) with
    | some x => x
    | none => 0
  else
    match pyFloat? cs with
    | some x => x
    | none => 0

/-- String-level wrapper of `prophetParseCpuL`. -/
def prophet_parse_cpu (v : String) : ℚ := prophetParseCpuL v.toList

/-- Suffix alternatives of the memory regex `^(\d+\.?\d*)([KMGT]i)?$`: the
optional group matches exactly `Ki`, `Mi`, `Gi` or `Ti`, and the `$` anchor
requires nothing else to follow. -/
def suffixCheck (r : List Char) : Option (List Char) :=
  if r = [] ∨ r = ['K', 'i'] ∨ r = ['M', 'i'] ∨ r = ['G', 'i'] ∨ r = ['T', 'i'] then some r
  else none

/-- Embeds `re.match(r'^(\d+\.?\d*)([KMGT]i)?$', value)` as used by both
`_parse_kubernetes_memory` variants: a nonempty digit run, an optional
decimal point with further digits, then an optional binary suffix, then the
end of the string.  Returns the numeric value and the suffix. -/
def memMatch? (cs : List Char) : Option (ℚ × List Char) :=
  let d1 := cs.takeWhile Char.isDigit
  if d1.isEmpty then none
  else
    match cs.dropWhile Char.isDigit with
    | '.' :: r2 =>
      match suffixCheck (r2.dropWhile Char.isDigit) with
      | some u => some (digitsToQ d1 + fracToQ (r2.takeWhile Char.isDigit), u)
      | none => none
    | r =>
      match suffixCheck r with
      | some u => some (digitsToQ d1, u)
      | none => none

/-- Unit table of `ResourceParser.memory_units` (resource_recommender.py,
lines 9-14), canonicalizing to Mi; `.get(unit, 1)` supplies the default 1. -/
def resourceParserMemUnit : List Char → ℚ
  | ['K', 'i'] => 1 / 1024
  | ['M', 'i'] => 1
  | ['G', 'i'] => 1024
  | ['T', 'i'] => 1024 * 1024
  | _ => 1

/-- Unit table of `ResourceRecommenderProphet.memory_units`
(resource_recommender.py, lines 68-73), canonicalizing to bytes;
`.get(unit, 1)` supplies the default 1. -/
def prophetMemUnit : List Char → ℚ
  | ['K', 'i'] => 1024
  | ['M', 'i'] => 1024 ^ 2
  | ['G', 'i'] => 1024 ^ 3
  | ['T', 'i'] => 1024 ^ 4
  | _ => 1

/-- Embeds `ResourceParser._parse_kubernetes_memory` (resource_recommender.py,
lines 20-37) on string input: regex match times the Mi-based unit multiplier,
0.0 when the regex fails.  On strings the `except` branch is unreachable, so
the function is total even though `self.logger` is missing in that class. -/
def resourceParser_parse_memory (v : String) : ℚ :=
  match memMatch? v.toList with
  | some (n, u) => n * resourceParserMemUnit u
  | none => 0

/-- Embeds `ResourceRecommenderProphet._parse_kubernetes_memory`
(resource_recommender.py, lines 89-105) on string input: regex match times
the bytes-based unit multiplier, 0.0 when the regex fails. -/
def prophet_parse_memory (v : String) : ℚ :=
  match memMatch? v.toList with
  | some (n, u) => n * prophetMemUnit u
  | none => 0

/-- Resource-type selector; the source passes the strings "cpu" and
"memory", the only two values that reach these functions. -/
inductive ResourceKind where
  | cpu
  | memory
  deriving DecidableEq, Repr

/-- Record built by `_format_recommendation` (resource_recommender.py, lines
120-137); `displayInt` is the integer rendered into `formatted` by the
f-string. -/
structure FormattedRec where
  raw_value : ℚ
  displayInt : ℤ
  formatted : String
  unit : String
  deriving DecidableEq, Repr

/-- Result of `generate_recommendation` (resource_recommender.py, lines
139-184); `currentValue` and `recValue` expose the intermediate numbers
`current_usage` and `recommendation` that the source formats. -/
structure RecResult where
  currentValue : ℚ
  recValue : ℚ
  current_usage : FormattedRec
  recommendation : FormattedRec
  buffer : ℚ
  deriving DecidableEq, Repr

/-- Embeds `ResourceRecommenderProphet._preprocess_metrics`
(resource_recommender.py, lines 107-118): the value column is mapped through
`_parse_kubernetes_cpu` for cpu and `_parse_kubernetes_memory` for memory. -/
def preprocess_metrics (raw : List String) : ResourceKind → List ℚ
  | ResourceKind.cpu => raw.map prophet_parse_cpu
  | ResourceKind.memory => raw.map prophet_parse_memory

/-- Embeds `ResourceRecommenderProphet._format_recommendation`
(resource_recommender.py, lines 120-137): cpu values are floored at 0 and
rendered as `int(value * 1000)` millicores; memory values are divided by
1024², floored at 0 and rendered as integer Mi. -/
def format_recommendation (value : ℚ) : ResourceKind → FormattedRec
  | ResourceKind.cpu =>
    let cpu_cores := max 0 value
    { raw_value := cpu_cores
      displayInt := pyTrunc (cpu_cores * 1000)
      formatted := toString (pyTrunc (cpu_cores * 1000)) ++ "m"
      unit := "millicores" }
  | ResourceKind.memory =>
    let memory_mi := max 0 (value / (1024 * 1024))
    { raw_value := memory_mi
      displayInt := pyTrunc memory_mi
      formatted := toString (pyTrunc memory_mi) ++ "Mi"
      unit := "Mi" }

/-- Embeds `ResourceRecommenderProphet.generate_recommendation`
(resource_recommender.py, lines 139-184).  The Prophet model is an external
library; its contribution — the `yhat_upper` column of the forecast — is
abstracted as the parameter `engine`, mapping the preprocessed history to
the list of forecast upper bounds.  The source computes
`current_usage = mean(y)`, `peak_forecast = max(0, max(yhat_upper))` and
`recommendation = peak_forecast * 1.2`. -/
def generate_recommendation (engine : List ℚ → List ℚ) (raw : List String)
    (rt : ResourceKind) : RecResult :=
  let ys := preprocess_metrics raw rt
  let current_usage := listMean ys
  let uppers := engine ys
  let peak_forecast := max 0 (listMax uppers)
  let recVal := peak_forecast * (6 / 5)
  { currentValue := current_usage
    recValue := recVal
    current_usage := format_recommendation current_usage rt
    recommendation := format_recommendation recVal rt
    buffer := 6 / 5 }

/-- PodMetrics record (src/metric_analyzer/models.py); the timestamp keeps
the raw time-of-day token of the metric line (the fixed analysis date that
pandas prepends carries no information for the properties verified here). -/
structure PodMetrics where
  name : String
  cpu : String
  memory : String
  timestamp : String
  deriving DecidableEq, Repr

/-- Embeds `re.match(r'\[([\d:]+)\]', line)` plus
`re.sub(r'\[[\d:]+\]\s*', '', line)` of `MetricsProcessor.process_metrics`
(src/metric_analyzer/metrics_processor.py, lines 33-41) for lines carrying a
single leading timestamp token, the only shape the producer emits: returns
the captured time token and the rest of the line. -/
def timestampMatch? (cs : List Char) : Option (List Char × List Char) :=
  match cs with
  | '[' :: rest =>
    let tok := rest.takeWhile (fun c => c.isDigit || c == ':')
    match rest.dropWhile (fun c => c.isDigit || c == ':') with
    | ']' :: r2 => if tok.isEmpty then none else some (tok, r2.dropWhile isWs)
    | _ => none
  | _ => none

/-- Embeds `MetricsProcessor._parse_metric_line` (metrics_processor.py,
lines 13-22): at least 3 tokens; the last two are cpu and memory, the rest
joined by single spaces form the pod name. -/
def parse_metric_line (cs : List Char) (ts : List Char) : Option PodMetrics :=
  let parts := (splitWs cs).map List.asString
  if 3 ≤ parts.length then
    some { name := joinSpace (parts.take (parts.length - 2))
           cpu := parts.getD (parts.length - 2) ""
           memory := parts.getD (parts.length - 1) ""
           timestamp := ts.asString }
  else none

/-- Embeds `MetricsProcessor.process_metrics` (metrics_processor.py, lines
24-53): lines without a leading timestamp are skipped, the timestamp is
stripped, header lines (containing "NAME") and blank remainders are skipped,
and the remaining lines become PodMetrics records.  `pd.to_datetime` is
external and succeeds on every `HH:MM:SS` token the producer emits. -/
def process_metrics (lines : List String) : List PodMetrics :=
  lines.filterMap (fun line =>
    match timestampMatch? (trimL line.toList) with
    | none => none
    | some (tok, rest) =>
      if isSubstrOf ("NAME".toList) rest || (trimL rest).isEmpty then none
      else parse_metric_line rest tok)

/-- Embeds the grouping expression of `KubernetesMonitor.run_analysis`
(kubernetes_monitor.py, line 138):
`[m for m in metrics if service in self._extract_service_name(m.name)]`.
Note the membership test is Python substring containment, not equality. -/
def serviceMetrics (metrics : List PodMetrics) (service : String) : List PodMetrics :=
  metrics.filter (fun m => isSubstrOf service.toList (extract_service_name m.name).toList)

/-- Embeds `KubernetesMonitor.run_analysis` (kubernetes_monitor.py, lines
130-144) restricted to its data path: flag services from the health lines,
group metrics per flagged service by the substring test, drop empty groups,
and produce one cpu and one memory recommendation per remaining service.
The two Prophet fits are abstracted by the two engine parameters. -/
def run_analysis (engineCpu engineMem : List ℚ → List ℚ)
    (metric_lines health_lines : List String) :
    List String × List (String × RecResult × RecResult) :=
  let metrics := process_metrics metric_lines
  let flagged := process_health_data health_lines
  (flagged, flagged.filterMap (fun s =>
    let sm := serviceMetrics metrics s
    if sm.isEmpty then none
    else
      some (s, generate_recommendation engineCpu (sm.map (fun m => m.cpu)) ResourceKind.cpu,
            generate_recommendation engineMem (sm.map (fun m => m.memory)) ResourceKind.memory)))

/-- Metric sample parsed in the C4 counterexample run. -/
def c4Sample : PodMetrics :=
  { name := "checkout-v9", cpu := "100m", memory := "256Mi", timestamp := "10:00:00" }

/-- Parsed metrics of the C4 counterexample run. -/
def c4Metrics : List PodMetrics := process_metrics ["[10:00:00] checkout-v9 100m 256Mi"]

/-- Metric lines of the end-to-end scenario of C2. -/
def c2MetricLines : List String :=
  ["[10:00:00] checkout-7d9f8c6b5-xk2p9 100m 256Mi",
   "[10:01:00] checkout-7d9f8c6b5-xk2p9 150m 256Mi",
   "[10:02:00] checkout-7d9f8c6b5-xk2p9 200m 256Mi"]

/-- Health lines of the end-to-end scenario of C2. -/
def c2HealthLines : List String :=
  ["default checkout-7d9f8c6b5-xk2p9 1/1 Running 2 (5m ago)"]

/-! Helper lemmas. -/

theorem take_all_of_le_takeWhile {p : Char → Bool} :
    ∀ (cs : List Char) (g : Nat), g ≤ (cs.takeWhile p).length → (cs.take g).all p = true := by
  intro cs
  induction cs with
  | nil => intro g _; simp
  | cons c cs ih =>
    intro g hg
    by_cases hc : p c = true
    · cases g with
      | zero => simp
      | succ g' =>
        simp only [List.takeWhile_cons, hc, if_true, List.length_cons] at hg
        simp only [List.take_succ_cons, List.all_cons, hc, Bool.true_and]
        exact ih g' (Nat.le_of_succ_le_succ hg)
    · simp only [List.takeWhile_cons, hc, if_false, List.length_nil] at hg
      have hz : g = 0 := Nat.le_zero.mp hg
      subst hz
      simp

theorem takeWhile_length_le (p : Char → Bool) :
    ∀ (l : List Char), (l.takeWhile p).length ≤ l.length := by
  intro l
  induction l with
  | nil => simp
  | cons c cs ih =>
    by_cases hc : p c = true
    · simp only [List.takeWhile_cons, hc, if_true, List.length_cons]
      exact Nat.succ_le_succ ih
    · simp [List.takeWhile_cons, hc]

theorem findGroup_some {tl : List Char → Bool} {cs : List Char} :
    ∀ {n : Nat} {out : List Char}, findGroup tl cs n = some out →
      ∃ g, 1 ≤ g ∧ g ≤ n ∧ out = cs.take g ∧ tl (cs.drop g) = true := by
  intro n
  induction n with
  | zero => intro out h; simp [findGroup] at h
  | succ n ih =>
    intro out h
    rw [findGroup] at h
    split at h
    · refine ⟨n + 1, Nat.succ_le_succ (Nat.zero_le n), Nat.le_refl _, ?_, by assumption⟩
      injection h with h
      exact h.symm
    · obtain ⟨g, h1, h2, h3, h4⟩ := ih h
      exact ⟨g, h1, Nat.le_succ_of_le h2, h3, h4⟩

theorem hyphenFive_decomp {cs : List Char} (h : hyphenFive cs = true) :
    ∃ r2, cs = '-' :: r2 ∧ 5 ≤ r2.length ∧ (r2.take 5).all isLowAlnum = true := by
  match cs with
  | [] => simp [hyphenFive] at h
  | c :: r2 =>
    simp only [hyphenFive, Bool.and_eq_true, beq_iff_eq, decide_eq_true_eq] at h
    obtain ⟨⟨hc, hlen⟩, hall⟩ := h
    subst hc
    exact ⟨r2, rfl, hlen, hall⟩

theorem svcTail_decomp {cs : List Char} (h : svcTail cs = true) :
    ∃ hx r2, cs = '-' :: (hx ++ '-' :: r2) ∧ 8 ≤ hx.length ∧ hx.length ≤ 10 ∧
      hx.all isHexLower = true ∧ 5 ≤ r2.length ∧ (r2.take 5).all isLowAlnum = true := by
  match cs with
  | [] => simp [svcTail] at h
  | c :: rest =>
    simp only [svcTail, Bool.and_eq_true, beq_iff_eq, List.any_eq_true,
      decide_eq_true_eq] at h
    obtain ⟨hc, k, hk, ⟨hkle, hall⟩, hfive⟩ := h
    subst hc
    obtain ⟨r2, heq, hlen5, hall5⟩ := hyphenFive_decomp hfive
    have hkval : k = 10 ∨ k = 9 ∨ k = 8 := by simpa using hk
    have hlen : (rest.take k).length = k := by
      rw [List.length_take]
      omega
    refine ⟨rest.take k, r2, ?_, by omega, by omega, hall, hlen5, hall5⟩
    have hsplit : rest = rest.take k ++ rest.drop k := (List.take_append_drop k rest).symm
    rw [heq] at hsplit
    rw [← hsplit]

theorem le_pyTrunc {n : ℤ} {q : ℚ} (h0 : 0 ≤ q) (h : (n : ℚ) ≤ q) : n ≤ pyTrunc q := by
  rw [pyTrunc, if_pos h0]
  exact Int.le_floor.mpr h

theorem le_foldl_max_init : ∀ (xs : List ℚ) (a : ℚ), a ≤ xs.foldl max a := by
  intro xs
  induction xs with
  | nil => intro a; simp
  | cons x xs ih =>
    intro a
    rw [List.foldl_cons]
    exact le_trans (le_max_left a x) (ih (max a x))

theorem foldl_max_choice : ∀ (xs : List ℚ) (a : ℚ), xs.foldl max a = a ∨ xs.foldl max a ∈ xs := by
  intro xs
  induction xs with
  | nil => intro a; left; rfl
  | cons x xs ih =>
    intro a
    rw [List.foldl_cons]
    rcases ih (max a x) with h | h
    · rcases max_choice a x with hm | hm
      · left; rw [h, hm]
      · right; rw [h, hm]; exact List.mem_cons_self x xs
    · right; exact List.mem_cons_of_mem x h

theorem le_foldl_max {v : ℚ} : ∀ (xs : List ℚ), v ∈ xs → ∀ (a : ℚ), v ≤ xs.foldl max a := by
  intro xs
  induction xs with
  | nil => intro hv; cases hv
  | cons x xs ih =>
    intro hv a
    rw [List.foldl_cons]
    rcases List.mem_cons.mp hv with h | h
    · subst h
      exact le_trans (le_max_right a v) (le_foldl_max_init xs _)
    · exact ih h (max a x)

theorem listMax_mem : ∀ {l : List ℚ}, l ≠ [] → listMax l ∈ l := by
  intro l h
  cases l with
  | nil => exact absurd rfl h
  | cons x xs =>
    rw [listMax]
    rcases foldl_max_choice xs x with h1 | h1
    · rw [h1]; exact List.mem_cons_self x xs
    · exact List.mem_cons_of_mem x h1

theorem le_listMax {v : ℚ} {l : List ℚ} (hv : v ∈ l) : v ≤ listMax l := by
  cases l with
  | nil => cases hv
  | cons x xs =>
    rw [listMax]
    rcases List.mem_cons.mp hv with h | h
    · subst h; exact le_foldl_max_init xs v
    · exact le_foldl_max xs h x

theorem getLastAppendOne (l : List Char) (a : Char) : (l ++ [a]).getLast? = some a := by
  induction l with
  | nil => rfl
  | cons x xs ih =>
    cases xs with
    | nil => rfl
    | cons y ys => exact ih

theorem rstripChar_append_one {cs : List Char} (h : cs.getLast? ≠ some 'm') :
    rstripChar 'm' (cs ++ ['m']) = cs := by
  rw [rstripChar, List.reverse_append]
  simp only [List.reverse_cons, List.reverse_nil, List.nil_append, List.cons_append,
    List.dropWhile_cons]
  norm_num
  have hdw : cs.reverse.dropWhile (fun x => x == 'm') = cs.reverse := by
    cases hrev : cs.reverse with
    | nil => rfl
    | cons x t =>
      have hx : cs.getLast? = some x := by
        have : cs = t.reverse ++ [x] := by
          have := congrArg List.reverse hrev
          simpa using this
        rw [this]
        exact getLastAppendOne t.reverse x
      have hxm : (x == 'm') = false := by
        rw [beq_eq_false_iff_ne]
        intro hxe
        exact h (by rw [hx, hxe])
      rw [List.dropWhile_cons, hxm]
      simp
  rw [hdw, List.reverse_reverse]

theorem digitsToQ_nonneg (cs : List Char) : 0 ≤ digitsToQ cs := Nat.cast_nonneg _

theorem fracToQ_nonneg (cs : List Char) : 0 ≤ fracToQ cs :=
  div_nonneg (Nat.cast_nonneg _) (by positivity)

theorem memMatchQ_nonneg {cs : List Char} {n : ℚ} {u : List Char}
    (h : memMatch? cs = some (n, u)) : 0 ≤ n := by
  rw [memMatch?] at h
  split at h
  · simp at h
  · split at h
    · split at h
      · simp only [Option.some.injEq, Prod.mk.injEq] at h
        rw [← h.1]
        exact add_nonneg (digitsToQ_nonneg _) (fracToQ_nonneg _)
      · simp at h
    · split at h
      · simp only [Option.some.injEq, Prod.mk.injEq] at h
        rw [← h.1]
        exact digitsToQ_nonneg _
      · simp at h

theorem prophetMemUnit_nonneg (u : List Char) : 0 ≤ prophetMemUnit u := by
  unfold prophetMemUnit
  split <;> norm_num

theorem resourceParserMemUnit_nonneg (u : List Char) : 0 ≤ resourceParserMemUnit u := by
  unfold resourceParserMemUnit
  split <;> norm_num

theorem malformed_skips {line : String} (h : malformedHealthLine line = true) :
    process_single_health_line line = none := by
  rw [process_single_health_line]
  split
  · rfl
  · rw [malformedHealthLine] at h
    simp only [Bool.or_eq_true, decide_eq_true_eq, Option.isNone_iff_eq_none] at h
    rw [process_health_parts]
    rcases h with h | h
    · rw [if_pos h]
    · by_cases hl : ((splitWs line.toList).map List.asString).length < 7
      · rw [if_pos hl]
      · rw [if_neg hl, h]

/-! Claim theorems. -/

/-- C3: service resolution is a pure total function: on the two reference
inputs it returns "checkout" and the unchanged name respectively, and for
every instance name it returns either the full name (no match) or a
nonempty leading run of letters/hyphens that the name continues with a
hyphen, an 8-10 character lowercase-hex token, a hyphen and a 5-character
lowercase-alphanumeric token. -/
theorem c3_service_resolution :
    extract_service_name "checkout-7d9f8c6b5-xk2p9" = "checkout" ∧
    extract_service_name "standalone-job" = "standalone-job" ∧
    ∀ name : String, extract_service_name name = name ∨
      ∃ g hx t r : List Char,
        name.toList = g ++ '-' :: (hx ++ '-' :: (t ++ r)) ∧
        (extract_service_name name).toList = g ∧
        g ≠ [] ∧ g.all isSvcChar = true ∧
        8 ≤ hx.length ∧ hx.length ≤ 10 ∧ hx.all isHexLower = true ∧
        t.length = 5 ∧ t.all isLowAlnum = true := by
  refine ⟨by decide, by decide, ?_⟩
  intro name
  rcases hf : findGroup svcTail name.toList (name.toList.takeWhile isSvcChar).length with _ | g
  · left
    simp only [extract_service_name, hf]
  · right
    obtain ⟨gl, hg1, hgle, hout, htl⟩ := findGroup_some hf
    obtain ⟨hx, r2, hdecomp, h8, h10, hhex, h5, hall5⟩ := svcTail_decomp htl
    have hglen : gl ≤ name.toList.length :=
      le_trans hgle (takeWhile_length_le _ _)
    refine ⟨name.toList.take gl, hx, r2.take 5, r2.drop 5, ?_, ?_, ?_, ?_,
      h8, h10, hhex, ?_, hall5⟩
    · rw [List.take_append_drop 5 r2, ← hdecomp, List.take_append_drop]
    · simp only [extract_service_name, hf]
      rw [List.toList_asString, hout]
    · apply List.ne_nil_of_length_pos
      rw [List.length_take]
      omega
    · exact take_all_of_le_takeWhile _ gl hgle
    · rw [List.length_take]
      omega

/-- C9: age parsing strips parentheses and the trailing "ago" literal,
reads optional h, m, s components in that order and returns fractional
hours: "45m ago" gives 3/4, "(2h15m ago)" gives 9/4, "18h ago" gives 18
(exact rational equality, hence within the 1e-6 tolerance); moreover adding
a parenthesis never changes the result. -/
theorem c9_age_parsing :
    parse_duration "45m ago" = Except.ok (3/4) ∧
    parse_duration "(2h15m ago)" = Except.ok (9/4) ∧
    parse_duration "18h ago" = Except.ok 18 ∧
    (∀ cs : List Char, parseDurationL ('(' :: cs) = parseDurationL cs) ∧
    (∀ cs : List Char, parseDurationL (cs ++ [')']) = parseDurationL cs) := by
  refine ⟨by decide, by decide, by decide, ?_, ?_⟩
  · intro cs
    have hfil : List.filter (fun c => !(c == '(') && !(c == ')')) ('(' :: cs)
        = List.filter (fun c => !(c == '(') && !(c == ')')) cs := by
      simp [List.filter_cons]
    rw [parseDurationL, parseDurationL, hfil]
  · intro cs
    have hfil : List.filter (fun c => !(c == '(') && !(c == ')')) (cs ++ [')'])
        = List.filter (fun c => !(c == '(') && !(c == ')')) cs := by
      simp [List.filter_append, List.filter_cons]
    rw [parseDurationL, parseDurationL, hfil]

/-- C6: on the unparsable string "garbage" the pipeline's CPU normalizer
`_parse_kubernetes_cpu` logs and returns 0.0, but `ResourceParser.parse_cpu`
raises `AttributeError` because its warning handler uses the undefined
`self.logger`; the well-formed inputs parse as expected. -/
theorem c6_cpu_parse_bug :
    parse_cpu "garbage" = Except.error PyErr.attributeError ∧
    prophet_parse_cpu "garbage" = 0 ∧
    prophet_parse_cpu "500m" = 500 ∧
    prophet_parse_cpu "512" = 512 :=
  ⟨by decide, by decide, by decide, by decide⟩

/-- C7 (amended): memory normalization never raises and always returns a
finite number that is at least 0, with 0.0 on unparsable input; a number
with an unknown suffix such as "512Xi" fails the quantity grammar and also
yields 0.0 — it is not treated as unsuffixed. -/
theorem c7_memory_normalization :
    (∀ s : String, 0 ≤ prophet_parse_memory s) ∧
    (∀ s : String, 0 ≤ resourceParser_parse_memory s) ∧
    prophet_parse_memory "garbage" = 0 ∧
    prophet_parse_memory "512Mi" = 512 * 1024 ^ 2 ∧
    resourceParser_parse_memory "512Mi" = 512 ∧
    prophet_parse_memory "512Xi" = 0 ∧
    resourceParser_parse_memory "512Xi" = 0 := by
  refine ⟨?_, ?_, by decide, by decide, by decide, by decide, by decide⟩
  · intro s
    rw [prophet_parse_memory]
    split
    · rename_i n u h
      exact mul_nonneg (memMatchQ_nonneg h) (prophetMemUnit_nonneg u)
    · exact le_refl 0
  · intro s
    rw [resourceParser_parse_memory]
    split
    · rename_i n u h
      exact mul_nonneg (memMatchQ_nonneg h) (resourceParserMemUnit_nonneg u)
    · exact le_refl 0

/-- C7 counterexample: the claim says an unknown suffix is treated as
unsuffixed (multiplier 1), so "512Xi" would have to parse like "512"; in
both memory parsers it instead parses to 0. -/
theorem c7_counterexample :
    prophet_parse_memory "512" = 512 ∧ prophet_parse_memory "512Xi" = 0 ∧
    ¬ prophet_parse_memory "512Xi" = prophet_parse_memory "512" ∧
    resourceParser_parse_memory "512" = 512 ∧ resourceParser_parse_memory "512Xi" = 0 ∧
    ¬ resourceParser_parse_memory "512Xi" = resourceParser_parse_memory "512" :=
  ⟨by decide, by decide, by decide, by decide, by decide, by decide⟩

/-- C10: for every decimal numeral without a trailing m,
`ResourceParser.parse_cpu` returns 1000 times what
`ResourceRecommenderProphet._parse_kubernetes_cpu` returns; with a trailing
m both return the bare numeral value; the recommendation pipeline's
preprocessing uses the latter variant, which leaves unsuffixed core values
unscaled ("500m" gives 500 in both, "0.5" gives 500 versus 1/2). -/
theorem c10_cpu_parser_relation :
    (∀ (s : String) (q : ℚ), pyFloat? s.toList = some q → s.toList.getLast? ≠ some 'm' →
      parse_cpu s = Except.ok (q * 1000) ∧ prophet_parse_cpu s = q) ∧
    (∀ (cs : List Char) (q : ℚ), pyFloat? cs = some q → cs.getLast? ≠ some 'm' →
      parseCpuL (cs ++ ['m']) = Except.ok q ∧ prophetParseCpuL (cs ++ ['m']) = q) ∧
    (∀ raw : List String, preprocess_metrics raw ResourceKind.cpu = raw.map prophet_parse_cpu) ∧
    parse_cpu "500m" = Except.ok 500 ∧ prophet_parse_cpu "500m" = 500 ∧
    parse_cpu "0.5" = Except.ok 500 ∧ prophet_parse_cpu "0.5" = 1/2 := by
  refine ⟨?_, ?_, fun raw => rfl, by decide, by decide, by decide, by decide⟩
  · intro s q hf hlast
    constructor
    · rw [parse_cpu, parseCpuL, if_neg hlast, hf]
    · rw [prophet_parse_cpu, prophetParseCpuL, if_neg hlast, hf]
  · intro cs q hf hlast
    have hg : (cs ++ ['m']).getLast? = some 'm' := getLastAppendOne cs 'm'
    have hr : rstripChar 'm' (cs ++ ['m']) = cs := rstripChar_append_one hlast
    constructor
    · rw [parseCpuL, if_pos hg, hr, hf]
    · rw [prophetParseCpuL, if_pos hg, hr, hf]

/-- C10 witness: the relation applied to the numeral "2" and to "5m". -/
theorem c10_cpu_parser_relation_witness :
    (parse_cpu "2" = Except.ok 2000 ∧ prophet_parse_cpu "2" = 2) ∧
    (parseCpuL ['5', 'm'] = Except.ok 5 ∧ prophetParseCpuL ['5', 'm'] = 5) :=
  ⟨c10_cpu_parser_relation.1 "2" 2 (by decide) (by decide),
   c10_cpu_parser_relation.2.1 ['5'] 5 (by decide) (by decide)⟩

/-- C5: for a nonempty series whose forecast step succeeds (modelled by the
engine returning a nonempty upper-bound list), the recommendation value is
1.2 times the zero-floored maximum of the forecast upper bounds, the
reported current usage is the arithmetic mean of the normalized historical
values, and the recommended value is never negative — for cpu and memory
alike. -/
theorem c5_recommendation_formula :
    (∀ (engine : List ℚ → List ℚ) (raw : List String),
      raw ≠ [] → engine (raw.map prophet_parse_cpu) ≠ [] →
      (∃ u, u ∈ engine (raw.map prophet_parse_cpu) ∧
        (∀ v ∈ engine (raw.map prophet_parse_cpu), v ≤ u) ∧
        (generate_recommendation engine raw ResourceKind.cpu).recValue = max 0 u * (6/5)) ∧
      (generate_recommendation engine raw ResourceKind.cpu).currentValue =
        (raw.map prophet_parse_cpu).sum / ((raw.map prophet_parse_cpu).length : ℚ) ∧
      0 ≤ (generate_recommendation engine raw ResourceKind.cpu).recValue ∧
      0 ≤ (generate_recommendation engine raw ResourceKind.cpu).recommendation.raw_value) ∧
    (∀ (engine : List ℚ → List ℚ) (raw : List String),
      raw ≠ [] → engine (raw.map prophet_parse_memory) ≠ [] →
      (∃ u, u ∈ engine (raw.map prophet_parse_memory) ∧
        (∀ v ∈ engine (raw.map prophet_parse_memory), v ≤ u) ∧
        (generate_recommendation engine raw ResourceKind.memory).recValue = max 0 u * (6/5)) ∧
      (generate_recommendation engine raw ResourceKind.memory).currentValue =
        (raw.map prophet_parse_memory).sum / ((raw.map prophet_parse_memory).length : ℚ) ∧
      0 ≤ (generate_recommendation engine raw ResourceKind.memory).recValue ∧
      0 ≤ (generate_recommendation engine raw ResourceKind.memory).recommendation.raw_value) := by
  constructor
  · intro engine raw _ hup
    refine ⟨⟨listMax (engine (raw.map prophet_parse_cpu)), listMax_mem hup,
        fun v hv => le_listMax hv, rfl⟩, rfl, ?_, ?_⟩
    · exact mul_nonneg (le_max_left 0 _) (by norm_num)
    · exact le_max_left 0 _
  · intro engine raw _ hup
    refine ⟨⟨listMax (engine (raw.map prophet_parse_memory)), listMax_mem hup,
        fun v hv => le_listMax hv, rfl⟩, rfl, ?_, ?_⟩
    · exact mul_nonneg (le_max_left 0 _) (by norm_num)
    · exact le_max_left 0 _

/-- C5 witness: the formula theorem applied to the identity engine on a
one-point cpu series and a one-point memory series. -/
theorem c5_recommendation_formula_witness :
    0 ≤ (generate_recommendation id ["100m"] ResourceKind.cpu).recValue ∧
    0 ≤ (generate_recommendation id ["256Mi"] ResourceKind.memory).recValue :=
  ⟨(c5_recommendation_formula.1 id ["100m"] (by decide) (by decide)).2.2.1,
   (c5_recommendation_formula.2 id ["256Mi"] (by decide) (by decide)).2.2.1⟩

/-- C1 counterexample: a well-formed health line with restarts=3 is not
flagged by the monitor's evaluator when its age is "18h ago", refuting
"restarts=3 always flags": the code also requires the parsed age to be at
most 2 hours. -/
theorem c1_counterexample :
    process_single_health_line
        "default checkout-7d9f8c6b5-xk2p9 1/1 Running 3 18h ago" = none ∧
    restartCount? "3" = some 3 ∧
    parse_duration "18h ago" = Except.ok 18 ∧
    ¬ ((18 : ℚ) ≤ 2) :=
  ⟨by decide, by decide, by decide, by norm_num⟩

/-- C1 (amended): on a tokenized health line with seven fields, restarts
"0" with status "Running" never flags; restarts "3" (any status) and status
"CrashLoopBackOff" with restarts "0" flag the resolved service exactly when
the parsed age is at most 2 hours. -/
theorem c1_health_flagging :
    (∀ t0 n t2 a1 a2 : String,
      process_health_parts [t0, n, t2, "Running", "0", a1, a2] = none) ∧
    (∀ (t0 n t2 status a1 a2 : String) (hrs : ℚ),
      parse_duration (joinSpace [a1, a2]) = Except.ok hrs → hrs ≤ 2 →
      process_health_parts [t0, n, t2, status, "3", a1, a2] =
        some (extract_service_name n)) ∧
    (∀ (t0 n t2 a1 a2 : String) (hrs : ℚ),
      parse_duration (joinSpace [a1, a2]) = Except.ok hrs → hrs ≤ 2 →
      process_health_parts [t0, n, t2, "CrashLoopBackOff", "0", a1, a2] =
        some (extract_service_name n)) ∧
    (∀ (t0 n t2 status a1 a2 : String) (hrs : ℚ),
      parse_duration (joinSpace [a1, a2]) = Except.ok hrs → ¬ hrs ≤ 2 →
      process_health_parts [t0, n, t2, status, "3", a1, a2] = none) := by
  refine ⟨?_, ?_, ?_, ?_⟩
  · intro t0 n t2 a1 a2
    rw [process_health_parts]
    cases hpd : parse_duration (joinSpace (([t0, n, t2, "Running", "0", a1, a2].drop 5).take 2)) with
    | error e =>
      simp [hpd, show restartCount? "0" = some (0 : ℤ) from rfl]
    | ok hrs =>
      simp [hpd, show restartCount? "0" = some (0 : ℤ) from rfl,
        show ¬ ("Running" = "CrashLoopBackOff") from by decide]
  · intro t0 n t2 status a1 a2 hrs hpd hle
    rw [process_health_parts]
    rw [if_neg (show ¬ ([t0, n, t2, status, "3", a1, a2].length < 7) from by simp)]
    have hpd2 : parse_duration
        (joinSpace (([t0, n, t2, status, "3", a1, a2].drop 5).take 2)) = Except.ok hrs := hpd
    rw [show restartCount? ([t0, n, t2, status, "3", a1, a2].getD 4 "") = some (3 : ℤ) from rfl]
    rw [hpd2]
    simp [hle]
  · intro t0 n t2 a1 a2 hrs hpd hle
    rw [process_health_parts]
    rw [if_neg (show ¬ ([t0, n, t2, "CrashLoopBackOff", "0", a1, a2].length < 7) from by simp)]
    have hpd2 : parse_duration
        (joinSpace (([t0, n, t2, "CrashLoopBackOff", "0", a1, a2].drop 5).take 2)) =
          Except.ok hrs := hpd
    rw [show restartCount? ([t0, n, t2, "CrashLoopBackOff", "0", a1, a2].getD 4 "") =
      some (0 : ℤ) from rfl]
    rw [hpd2]
    simp [hle]
  · intro t0 n t2 status a1 a2 hrs hpd hnle
    rw [process_health_parts]
    rw [if_neg (show ¬ ([t0, n, t2, status, "3", a1, a2].length < 7) from by simp)]
    have hpd2 : parse_duration
        (joinSpace (([t0, n, t2, status, "3", a1, a2].drop 5).take 2)) = Except.ok hrs := hpd
    rw [show restartCount? ([t0, n, t2, status, "3", a1, a2].getD 4 "") = some (3 : ℤ) from rfl]
    rw [hpd2]
    simp [hnle]

/-- C1 witness: the amended flagging rule applied to a concrete flagged
line, a concrete CrashLoopBackOff line and a concrete stale line. -/
theorem c1_health_flagging_witness :
    process_health_parts
        ["default", "checkout-7d9f8c6b5-xk2p9", "1/1", "Running", "3", "5m", "ago"] =
      some (extract_service_name "checkout-7d9f8c6b5-xk2p9") ∧
    process_health_parts
        ["default", "checkout-7d9f8c6b5-xk2p9", "1/1", "CrashLoopBackOff", "0", "5m", "ago"] =
      some (extract_service_name "checkout-7d9f8c6b5-xk2p9") ∧
    process_health_parts
        ["default", "checkout-7d9f8c6b5-xk2p9", "1/1", "Running", "3", "18h", "ago"] = none :=
  ⟨c1_health_flagging.2.1 "default" "checkout-7d9f8c6b5-xk2p9" "1/1" "Running" "5m" "ago"
      (1/12) (by decide) (by norm_num),
   c1_health_flagging.2.2.1 "default" "checkout-7d9f8c6b5-xk2p9" "1/1" "5m" "ago"
      (1/12) (by decide) (by norm_num),
   c1_health_flagging.2.2.2 "default" "checkout-7d9f8c6b5-xk2p9" "1/1" "Running" "18h" "ago"
      18 (by decide) (by norm_num)⟩

/-- C8: in the monitor a malformed health line (wrong token count or
non-numeric restart count) is skipped, and the flagged services are exactly
those of the input without that line; in HealthAnalyzer the missing
exception handling makes a non-numeric restart count raise ValueError,
aborting the whole batch. -/
theorem c8_malformed_line_handling :
    (∀ (l1 l2 : List String) (ml : String), malformedHealthLine ml = true →
      process_health_data (l1 ++ ml :: l2) = process_health_data (l1 ++ l2)) ∧
    analyze_pods ["default checkout-7d9f8c6b5-xk2p9 0/1 Running abc 5m"] =
      Except.error PyErr.valueError := by
  refine ⟨?_, by decide⟩
  intro l1 l2 ml hml
  have hstep : ∀ acc, healthStep acc ml = acc := by
    intro acc
    rw [healthStep, malformed_skips hml]
  rw [process_health_data, process_health_data, List.foldl_append, List.foldl_append,
    List.foldl_cons, hstep]

/-- C8 witness: skipping a concrete malformed line (non-numeric restart
count) leaves the flagged-service set of a concrete healthy batch
unchanged. -/
theorem c8_malformed_line_handling_witness :
    malformedHealthLine "default pod-abcdef123-xyz99 1/1 Running abc 5m ago" = true ∧
    process_health_data
        ["default checkout-7d9f8c6b5-xk2p9 1/1 Running 2 (5m ago)",
         "default pod-abcdef123-xyz99 1/1 Running abc 5m ago"] =
      process_health_data ["default checkout-7d9f8c6b5-xk2p9 1/1 Running 2 (5m ago)"] :=
  ⟨by decide,
   c8_malformed_line_handling.1
     ["default checkout-7d9f8c6b5-xk2p9 1/1 Running 2 (5m ago)"] []
     "default pod-abcdef123-xyz99 1/1 Running abc 5m ago" (by decide)⟩

/-- C4 (amended): a parsed metric sample lands in a flagged service's group
iff the flagged name is a substring of the sample's resolved service name —
substring containment, not equality — so one sample can land in the groups
of several flagged services at once. -/
theorem c4_grouping_by_substring :
    ∀ (metric_lines health_lines : List String) (s : String) (m : PodMetrics),
      s ∈ process_health_data health_lines →
      m ∈ process_metrics metric_lines →
      (m ∈ serviceMetrics (process_metrics metric_lines) s ↔
        isSubstrOf s.toList (extract_service_name m.name).toList = true) := by
  intro ml hl s m _ hm
  rw [serviceMetrics, List.mem_filter]
  exact ⟨fun h => h.2, fun h => ⟨hm, h⟩⟩

/-- C4 counterexample: with flagged services "out" and "checkout-v9", the
single sample for pod "checkout-v9" is grouped under both of them — it lies
in the series of a flagged service ("out") that is not its resolved service,
refuting both the membership-iff-equality claim and exclusivity. -/
theorem c4_counterexample :
    process_health_data
        ["default out 1/1 Running 3 1m ago",
         "default checkout-v9 1/1 Running 3 1m ago"] = ["out", "checkout-v9"] ∧
    c4Metrics = [c4Sample] ∧
    c4Sample ∈ serviceMetrics c4Metrics "out" ∧
    extract_service_name c4Sample.name ≠ "out" ∧
    c4Sample ∈ serviceMetrics c4Metrics "checkout-v9" :=
  ⟨by decide, by decide, by decide, by decide, by decide⟩

/-- C4 witness: the substring criterion evaluated on the counterexample
sample and the flagged service "out". -/
theorem c4_grouping_by_substring_witness :
    c4Sample ∈ serviceMetrics (process_metrics ["[10:00:00] checkout-v9 100m 256Mi"]) "out" ↔
      isSubstrOf "out".toList (extract_service_name c4Sample.name).toList = true :=
  c4_grouping_by_substring ["[10:00:00] checkout-v9 100m 256Mi"]
    ["default out 1/1 Running 3 1m ago"] "out" c4Sample (by decide) (by decide)

/-- C2: on three increasing cpu metric lines and one restarts=2 health line,
the pipeline flags exactly "checkout"; whenever the forecast's upper bounds
reach the last observed point (200, as the claim grants), the integer in the
formatted CPU recommendation is at least 240; and the memory recommendation
is computed from the same group's three memory samples. -/
theorem c2_end_to_end (eC eM : List ℚ → List ℚ)
    (hub : 200 ≤ listMax (eC [100, 150, 200])) :
    (run_analysis eC eM c2MetricLines c2HealthLines).1 = ["checkout"] ∧
    (run_analysis eC eM c2MetricLines c2HealthLines).2 =
      [("checkout",
        generate_recommendation eC ["100m", "150m", "200m"] ResourceKind.cpu,
        generate_recommendation eM ["256Mi", "256Mi", "256Mi"] ResourceKind.memory)] ∧
    240 ≤ (generate_recommendation eC ["100m", "150m", "200m"]
      ResourceKind.cpu).recommendation.displayInt := by
  refine ⟨rfl, rfl, ?_⟩
  show (240 : ℤ) ≤ pyTrunc
    (max 0 (max 0 (listMax (eC (List.map prophet_parse_cpu ["100m", "150m", "200m"]))) *
      (6/5)) * 1000)
  rw [show List.map prophet_parse_cpu ["100m", "150m", "200m"] = [100, 150, 200] from by decide]
  have h0u : (0 : ℚ) ≤ listMax (eC [100, 150, 200]) := le_trans (by norm_num) hub
  rw [max_eq_right h0u]
  have hrec : (240 : ℚ) ≤ listMax (eC [100, 150, 200]) * (6/5) := by linarith
  have h0rec : (0 : ℚ) ≤ listMax (eC [100, 150, 200]) * (6/5) := le_trans (by norm_num) hrec
  rw [max_eq_right h0rec]
  apply le_pyTrunc (by nlinarith)
  push_cast
  nlinarith

/-- C2 witness: the end-to-end theorem applied to the identity forecast
engine, whose maximal upper bound is the last observed point itself. -/
theorem c2_end_to_end_witness :
    (run_analysis id id c2MetricLines c2HealthLines).1 = ["checkout"] ∧
    (run_analysis id id c2MetricLines c2HealthLines).2 =
      [("checkout",
        generate_recommendation id ["100m", "150m", "200m"] ResourceKind.cpu,
        generate_recommendation id ["256Mi", "256Mi", "256Mi"] ResourceKind.memory)] ∧
    240 ≤ (generate_recommendation id ["100m", "150m", "200m"]
      ResourceKind.cpu).recommendation.displayInt :=
  c2_end_to_end id id (by decide)

